import Mathlib

/-!
Verification of the FI backend's chat orchestration core
(`backend/app/services/chat_service.py`, `backend/app/utils/token_counter.py`).

The Python code is shallowly embedded: strings become `List Char`,
Python's `sep in s` / `s.split(sep, 1)` become `hasSub` / `splitFirst`,
the streaming thinking-classifier loop of `generate_stream` becomes the
state-transition function `stepToken`, exceptions become `Except`, and the
process-wide context-window registry becomes an explicit map value.
-/

namespace FI

/-! ### String scanning primitives (Python `in` and `split(sep, 1)`) -/

/-- Boolean prefix test on character lists. -/
def isPre : List Char → List Char → Bool
  | [], _ => true
  | _ :: _, [] => false
  | a :: p, b :: s => a == b && isPre p s

/-- Boolean suffix test on character lists. -/
def isSuf (p s : List Char) : Bool := isPre p.reverse s.reverse

/-- Python `s.split(sep, 1)` restricted to the found case: returns the text
before and after the first occurrence of `sep` in `s`, or `none` when `sep`
does not occur in `s`. -/
def splitFirst (sep : List Char) : List Char → Option (List Char × List Char)
  | [] => if isPre sep [] then some ([], []) else none
  | c :: rest =>
    if isPre sep (c :: rest) then some ([], (c :: rest).drop sep.length)
    else
      match splitFirst sep rest with
      | none => none
      | some (p, q) => some (c :: p, q)

/-- Python `sep in s`. -/
def hasSub (sep s : List Char) : Bool := (splitFirst sep s).isSome

theorem isPre_iff (p s : List Char) : isPre p s = true ↔ ∃ t, s = p ++ t := by
  induction p generalizing s with
  | nil => simp [isPre]
  | cons a p ih =>
    cases s with
    | nil => simp [isPre]
    | cons b s =>
      simp only [isPre, Bool.and_eq_true, beq_iff_eq]
      constructor
      · rintro ⟨rfl, h⟩
        obtain ⟨t, rfl⟩ := (ih s).mp h
        exact ⟨t, rfl⟩
      · rintro ⟨t, h⟩
        injection h with h1 h2
        exact ⟨h1.symm, (ih s).mpr ⟨t, h2⟩⟩

theorem isPre_refl (p : List Char) : isPre p p = true :=
  (isPre_iff p p).mpr ⟨[], by simp⟩

theorem isPre_append (p s t : List Char) (h : isPre p s = true) :
    isPre p (s ++ t) = true := by
  obtain ⟨u, rfl⟩ := (isPre_iff p s).mp h
  exact (isPre_iff _ _).mpr ⟨u ++ t, by simp⟩

theorem isPre_self_append (p t : List Char) : isPre p (p ++ t) = true :=
  (isPre_iff _ _).mpr ⟨t, rfl⟩

/-- A prefix test that succeeds forces the scrutinee to start with the prefix. -/
theorem eq_append_of_isPre (p s : List Char) (h : isPre p s = true) :
    s = p ++ s.drop p.length := by
  obtain ⟨t, rfl⟩ := (isPre_iff p s).mp h
  simp

/-- A prefix no longer than the first summand of an append is a prefix of it. -/
theorem isPre_of_isPre_append (p x y : List Char) (h : isPre p (x ++ y) = true)
    (hl : p.length ≤ x.length) : isPre p x = true := by
  induction p generalizing x with
  | nil => simp [isPre]
  | cons a p ih =>
    cases x with
    | nil => simp at hl
    | cons b x =>
      simp only [List.cons_append, isPre, Bool.and_eq_true] at h ⊢
      exact ⟨h.1, ih x h.2 (by simpa using hl)⟩

/-- A prefix longer than the first summand of an append decomposes across it. -/
theorem isPre_split (p x y : List Char) (h : isPre p (x ++ y) = true)
    (hl : x.length ≤ p.length) :
    p.take x.length = x ∧ isPre (p.drop x.length) y = true := by
  induction x generalizing p with
  | nil => simpa using h
  | cons b x ih =>
    cases p with
    | nil => simp at hl
    | cons a p =>
      simp only [List.cons_append, isPre, Bool.and_eq_true, beq_iff_eq] at h
      obtain ⟨rfl, h2⟩ := h
      obtain ⟨h3, h4⟩ := ih p h2 (by simpa using hl)
      simp only [List.length_cons, List.take_succ_cons, List.drop_succ_cons]
      exact ⟨by rw [h3], h4⟩

theorem splitFirst_sound (sep s p q : List Char)
    (h : splitFirst sep s = some (p, q)) : s = p ++ sep ++ q := by
  induction s generalizing p q with
  | nil =>
    cases sep with
    | nil =>
      simp [splitFirst, isPre] at h
      simp [h.1, h.2]
    | cons a l => simp [splitFirst, isPre] at h
  | cons c rest ih =>
    by_cases hp : isPre sep (c :: rest) = true
    · simp only [splitFirst, hp, if_true] at h
      injection h with h'
      injection h' with h1 h2
      subst h1
      rw [← h2]
      have := eq_append_of_isPre sep (c :: rest) hp
      simpa using this
    · simp only [splitFirst, hp, if_false] at h
      cases hsp : splitFirst sep rest with
      | none => rw [hsp] at h; exact absurd h (by simp)
      | some pq =>
        obtain ⟨p', q'⟩ := pq
        rw [hsp] at h
        injection h with h'
        injection h' with h1 h2
        subst h2
        rw [← h1]
        simp [ih p' q' hsp]

theorem hasSub_cons (sep : List Char) (c : Char) (rest : List Char)
    (h : hasSub sep rest = true) : hasSub sep (c :: rest) = true := by
  unfold hasSub splitFirst
  by_cases hp : isPre sep (c :: rest) = true
  · simp [hp]
  · simp only [hp, if_false]
    unfold hasSub at h
    cases hsp : splitFirst sep rest with
    | none => rw [hsp] at h; simp at h
    | some pq => simp [hsp]

theorem hasSub_intro (sep p q : List Char) : hasSub sep (p ++ sep ++ q) = true := by
  induction p with
  | nil =>
    simp only [List.nil_append]
    cases sep with
    | nil => cases q <;> simp [hasSub, splitFirst, isPre]
    | cons a l =>
      have heq : (a :: l) ++ q = a :: (l ++ q) := by simp
      have hp : isPre (a :: l) (a :: (l ++ q)) = true := by
        rw [← heq]; exact isPre_self_append _ q
      rw [heq]
      simp [hasSub, splitFirst, hp]
  | cons c p ih =>
    have : (c :: p) ++ sep ++ q = c :: (p ++ sep ++ q) := by simp
    rw [this]
    exact hasSub_cons sep c _ ih

theorem hasSub_of_isPre (sep s : List Char) (h : isPre sep s = true) :
    hasSub sep s = true := by
  obtain ⟨t, rfl⟩ := (isPre_iff sep s).mp h
  have := hasSub_intro sep [] t
  simpa using this

theorem isPre_eq_take (p s : List Char) (h : isPre p s = true) :
    p = s.take p.length := by
  obtain ⟨t, rfl⟩ := (isPre_iff p s).mp h
  rw [List.take_append_eq_append_take]
  simp

/-- `sep` has no self-overlap: no proper nonempty prefix of `sep` is also a
suffix of `sep`. Holds for both thinking markers (checked by `decide`). -/
def SelfOverlapFree (sep : List Char) : Prop :=
  ∀ k, k < sep.length → 0 < k → sep.drop k ≠ sep.take (sep.length - k)

instance (sep : List Char) : Decidable (SelfOverlapFree sep) := by
  unfold SelfOverlapFree
  infer_instance

/-- If `sep` does not occur in the nonempty `p` and has no self-overlap, then
`sep` is not a prefix of `p ++ sep ++ q`. -/
theorem not_isPre_mid (sep p q : List Char) (hne : p ≠ [])
    (hnp : hasSub sep p = false) (hso : SelfOverlapFree sep) :
    isPre sep (p ++ sep ++ q) = true → False := by
  intro h
  rw [List.append_assoc] at h
  by_cases hl : sep.length ≤ p.length
  · have := isPre_of_isPre_append sep p (sep ++ q) h hl
    rw [hasSub_of_isPre sep p this] at hnp
    exact absurd hnp (by simp)
  · push_neg at hl
    obtain ⟨h1, h2⟩ := isPre_split sep p (sep ++ q) h (le_of_lt hl)
    have h3 : isPre (sep.drop p.length) sep = true := by
      apply isPre_of_isPre_append _ sep q h2
      simp [Nat.le_of_lt hl]
    have hdrop : sep.drop p.length = sep.take (sep.length - p.length) := by
      have := isPre_eq_take _ _ h3
      rwa [List.length_drop] at this
    have hp0 : 0 < p.length := List.length_pos.mpr hne
    exact hso p.length hl hp0 hdrop

/-- First-occurrence lemma: when `sep` does not occur in `p` and has no
self-overlap, splitting `p ++ sep ++ q` on `sep` yields exactly `(p, q)`. -/
theorem splitFirst_append_first (sep p q : List Char)
    (hnp : hasSub sep p = false) (hso : SelfOverlapFree sep) :
    splitFirst sep (p ++ sep ++ q) = some (p, q) := by
  induction p with
  | nil =>
    cases sep with
    | nil => simp [hasSub, splitFirst, isPre] at hnp
    | cons a l =>
      simp only [List.nil_append]
      have heq : (a :: l) ++ q = a :: (l ++ q) := by simp
      have hp : isPre (a :: l) (a :: (l ++ q)) = true := by
        rw [← heq]; exact isPre_self_append _ q
      have hd : List.drop (a :: l).length (a :: (l ++ q)) = q := by
        rw [← heq]; exact List.drop_left _ _
      rw [heq]
      unfold splitFirst
      simp [hp, hd]
  | cons c p ih =>
    have hpne : (c :: p) ++ sep ++ q = c :: (p ++ sep ++ q) := by simp
    rw [hpne]
    have hnotpre : ¬ isPre sep (c :: (p ++ sep ++ q)) = true := by
      intro h
      exact not_isPre_mid sep (c :: p) q (by simp) hnp hso (by simpa using h)
    have hnp' : hasSub sep p = false := by
      by_contra h
      rw [Bool.not_eq_false] at h
      rw [hasSub_cons sep c p h] at hnp
      exact absurd hnp (by simp)
    have hnotpre' : ¬ isPre sep (c :: (p ++ (sep ++ q))) = true := by
      rw [← List.append_assoc]; exact hnotpre
    have ih' : splitFirst sep (p ++ (sep ++ q)) = some (p, q) := by
      rw [← List.append_assoc]; exact ih hnp'
    unfold splitFirst
    simp [hnotpre', ih']

/-- Occurrence decomposition across an append: an occurrence of `sep` in
`x ++ y` lies in `x`, lies in `y`, or crosses the boundary. -/
theorem hasSub_append_cases (sep x y : List Char)
    (h : hasSub sep (x ++ y) = true) :
    hasSub sep x = true ∨ hasSub sep y = true ∨
      ∃ k, 0 < k ∧ k < sep.length ∧ isSuf (sep.take k) x = true ∧
        isPre (sep.drop k) y = true := by
  induction x with
  | nil => right; left; simpa using h
  | cons c x ih =>
    have hx : c :: x ++ y = c :: (x ++ y) := by simp
    rw [hx] at h
    unfold hasSub splitFirst at h
    by_cases hp : isPre sep (c :: (x ++ y)) = true
    · by_cases hl : sep.length ≤ (c :: x).length
      · left
        exact hasSub_of_isPre sep (c :: x)
          (isPre_of_isPre_append sep (c :: x) y (by simpa using hp) hl)
      · push_neg at hl
        obtain ⟨h1, h2⟩ := isPre_split sep (c :: x) y (by simpa using hp)
          (le_of_lt hl)
        right; right
        refine ⟨(c :: x).length, by simp, hl, ?_, h2⟩
        rw [h1]
        unfold isSuf
        exact isPre_refl _
    · simp only [hp, if_false] at h
      cases hsp : splitFirst sep (x ++ y) with
      | none => rw [hsp] at h; simp at h
      | some pq =>
        have hsub : hasSub sep (x ++ y) = true := by simp [hasSub, hsp]
        rcases ih hsub with h' | h' | ⟨k, hk0, hkl, hsuf, hpre⟩
        · left; exact hasSub_cons sep c x h'
        · right; left; exact h'
        · right; right
          refine ⟨k, hk0, hkl, ?_, hpre⟩
          unfold isSuf at hsuf ⊢
          rw [List.reverse_cons]
          exact isPre_append _ _ _ hsuf

/-! ### Thinking markers -/

/-- The opening marker `<think>` (from `self.thinking_pattern` and the
literal splits in `generate_stream`). -/
def opMarker : List Char := "<think>".toList

/-- The closing marker `</think>`. -/
def clMarker : List Char := "</think>".toList

theorem opMarker_selfOverlapFree : SelfOverlapFree opMarker := by decide

theorem clMarker_selfOverlapFree : SelfOverlapFree clMarker := by decide

theorem opMarker_not_in_clMarker : hasSub opMarker clMarker = false := by decide

theorem opMarker_take_not_suf_cl :
    ∀ k, k < opMarker.length → 0 < k → isSuf (opMarker.take k) clMarker = false := by
  decide

theorem opMarker_drop_not_pre_cl :
    ∀ k, k < opMarker.length → 0 < k → isPre (opMarker.drop k) clMarker = false := by
  decide

/-- `<think>` cannot occur in `</think> ++ post` when it does not occur in
`post`. -/
theorem op_not_in_cl_append (post : List Char)
    (h : hasSub opMarker post = false) :
    hasSub opMarker (clMarker ++ post) = false := by
  by_contra hc
  rw [Bool.not_eq_false] at hc
  rcases hasSub_append_cases _ _ _ hc with h1 | h1 | ⟨k, hk0, hkl, hsuf, _⟩
  · rw [opMarker_not_in_clMarker] at h1; exact absurd h1 (by simp)
  · rw [h] at h1; exact absurd h1 (by simp)
  · rw [opMarker_take_not_suf_cl k hkl hk0] at hsuf; exact absurd hsuf (by simp)

/-- `<think>` cannot occur in `pre ++ </think> ++ post` when it occurs in
neither `pre` nor `post`. -/
theorem op_not_in_pre_cl_post (pre post : List Char)
    (h1 : hasSub opMarker pre = false) (h2 : hasSub opMarker post = false) :
    hasSub opMarker (pre ++ (clMarker ++ post)) = false := by
  by_contra hc
  rw [Bool.not_eq_false] at hc
  rcases hasSub_append_cases _ _ _ hc with h' | h' | ⟨k, hk0, hkl, _, hpre⟩
  · rw [h1] at h'; exact absurd h' (by simp)
  · rw [op_not_in_cl_append post h2] at h'; exact absurd h' (by simp)
  · have hpc : isPre (opMarker.drop k) clMarker = true := by
      refine isPre_of_isPre_append _ clMarker post hpre ?_
      rw [List.length_drop]
      have h7 : opMarker.length = 7 := rfl
      have h8 : clMarker.length = 8 := rfl
      omega
    rw [opMarker_drop_not_pre_cl k hkl hk0] at hpc
    exact absurd hpc (by simp)

/-! ### The streaming thinking classifier (`generate_stream`, loop body) -/

/-- The two output channels of the streaming classifier
(`{"type": "response"}` / `{"type": "thinking"}` frames). -/
inductive Channel where
  | response
  | thinking
deriving DecidableEq, Repr

/-- One yielded frame `{"token": ..., "type": ...}` of `generate_stream`. -/
structure Emission where
  token : List Char
  channel : Channel
deriving DecidableEq, Repr

/-- The loop state of `generate_stream`: `in_thinking_mode` and
`buffered_thinking`. -/
structure CState where
  inThinking : Bool
  buffer : List Char
deriving DecidableEq, Repr

/-- One iteration of the `async for token in generator` loop of
`generate_stream` (chat_service.py lines 397-449): returns the new loop state
and the frames yielded for this raw fragment. -/
def stepToken (is_reasoning_model : Bool) (st : CState) (token : List Char) :
    CState × List Emission :=
  if is_reasoning_model then
    match splitFirst opMarker token with
    | some (pre, post) =>
      -- '<think>' in token: emit prefix on response, reset and refill buffer
      (⟨true, post⟩, if pre.isEmpty then [] else [⟨pre, .response⟩])
    | none =>
      match splitFirst clMarker token with
      | some (pre, post) =>
        -- '</think>' in token: flush buffer + prefix as thinking, suffix as response
        let buf := st.buffer ++ pre
        (⟨false, []⟩,
          (if buf.isEmpty then [] else [⟨buf, .thinking⟩]) ++
          (if post.isEmpty then [] else [⟨post, .response⟩]))
      | none =>
        if st.inThinking then
          -- buffer, flushing only once the buffer is large enough
          let buf := st.buffer ++ token
          if buf.length > 10 then (⟨true, []⟩, [⟨buf, .thinking⟩])
          else (⟨true, buf⟩, [])
        else (st, [⟨token, .response⟩])
  else (st, [⟨token, .response⟩])

/-- Run the streaming loop over a list of raw fragments from a given state. -/
def runTokens (is_reasoning_model : Bool) : CState → List (List Char) →
    CState × List Emission
  | st, [] => (st, [])
  | st, t :: ts =>
    let p := stepToken is_reasoning_model st t
    let r := runTokens is_reasoning_model p.1 ts
    (r.1, p.2 ++ r.2)

/-- All frames yielded by `generate_stream`'s classification of a fragment
stream, including the final flush of leftover buffered thinking content
(lines 451-454). -/
def generate_stream_emissions (is_reasoning_model : Bool)
    (tokens : List (List Char)) : List Emission :=
  (runTokens is_reasoning_model ⟨false, []⟩ tokens).2 ++
    (if (runTokens is_reasoning_model ⟨false, []⟩ tokens).1.buffer.isEmpty then []
     else [⟨(runTokens is_reasoning_model ⟨false, []⟩ tokens).1.buffer, .thinking⟩])

/-- Concatenation, in emission order, of the frames on one channel. -/
def chanText (ch : Channel) (es : List Emission) : List Char :=
  ((es.filter (fun e => e.channel == ch)).map Emission.token).flatten

/-! ### Non-streaming extraction (`_extract_thinking_content`) -/

/-- Python whitespace stripped by `str.strip()`. -/
def isPyWhitespace (c : Char) : Bool :=
  c = ' ' || c = '\t' || c = '\n' || c = '\r' || c = '\x0b' || c = '\x0c'

/-- Python `str.strip()`. -/
def pyStrip (s : List Char) : List Char :=
  ((s.dropWhile isPyWhitespace).reverse.dropWhile isPyWhitespace).reverse

/-- The leftmost, shortest match of the regex `<think>(.*?)</think>` (DOTALL):
text before the first `<think>`, the group between it and the first following
`</think>`, and the text after that `</think>`. -/
def findSpan (s : List Char) : Option (List Char × List Char × List Char) :=
  match splitFirst opMarker s with
  | none => none
  | some (before, rest) =>
    match splitFirst clMarker rest with
    | none => none
    | some (inner, after) => some (before, inner, after)

/-- Fuel-indexed worker for `re.sub`: delete every non-overlapping match of
`<think>(.*?)</think>`, scanning left to right. -/
def subAllF : Nat → List Char → List Char
  | 0, s => s
  | Nat.succ n, s =>
    match findSpan s with
    | none => s
    | some (before, _, after) => before ++ subAllF n after

/-- `self.thinking_pattern.sub('', text)`. -/
def subAll (s : List Char) : List Char := subAllF s.length s

/-- `_extract_thinking_content` (chat_service.py lines 211-229): on a regex
match, the stripped text with all spans deleted plus the stripped first group;
otherwise the text unchanged with no thinking content. -/
def extract_thinking_content (text : List Char) : List Char × Option (List Char) :=
  match findSpan text with
  | some (_, inner, _) => (pyStrip (subAll text), some (pyStrip inner))
  | none => (text, none)

/-! ### Reasoning-model detection (`_is_reasoning_model`) -/

/-- `_is_reasoning_model` (lines 231-247): case-insensitive substring match of
any configured reasoning-model keyword against the model id. The keyword list
itself is `settings.REASONING_MODELS`; config.py defines no such attribute, so
the list is kept as a parameter. Modelled from the spec: "a classification
derived from matching known model-name substrings against a configured
list". -/
def is_reasoning_model (reasoningModels : List String) (model_id : String) : Bool :=
  reasoningModels.any (fun rm =>
    hasSub (rm.toList.map Char.toLower) (model_id.toList.map Char.toLower))

/-! ### Message formatting (`_format_messages`) -/

/-- One chat message (`{"role": ..., "content": ...}`). -/
structure Msg where
  role : String
  content : String
deriving DecidableEq, Repr

/-- Python `str.capitalize()`: first character upper-cased, the rest
lower-cased. -/
def pyCapitalize (s : String) : List Char :=
  match s.toList with
  | [] => []
  | c :: cs => c.toUpper :: cs.map Char.toLower

/-- `_format_messages` (lines 80-125): renders `"Role: content\n"` per message
plus a trailing `"Assistant: "` cue for the two supported providers, and
raises `ValueError("Unsupported provider: ...")` otherwise. The error value is
the ValueError message. -/
def format_messages (provider : String) (messages : List Msg) :
    Except String (List Char) :=
  if provider = "huggingface" then
    .ok ((messages.foldl
      (fun acc m => acc ++ pyCapitalize m.role ++ ": ".toList ++
        m.content.toList ++ ['\n']) []) ++ "Assistant: ".toList)
  else if provider = "ollama" then
    .ok ((messages.foldl
      (fun acc m => acc ++ pyCapitalize m.role ++ ": ".toList ++
        m.content.toList ++ ['\n']) []) ++ "Assistant: ".toList)
  else
    .error ("Unsupported provider: " ++ provider)

/-! ### Error taxonomy (`app/utils/exceptions.py`) -/

/-- Failures a provider adapter can signal (base_service subclasses raise
`ModelServiceError` and `ModelNotFoundError`). -/
inductive AdapterError where
  | modelServiceE (msg : String)
  | modelNotFoundE (model_id : String)
deriving DecidableEq, Repr

/-- The application exceptions reachable from the chat orchestrator. -/
inductive ChatError where
  | modelService (msg : String)
  | modelNotFound (model_id : String)
  | contextLimitExceeded (token_count context_window : Nat) (model_id : String)
deriving DecidableEq, Repr

/-- The HTTP status each exception class carries (exceptions.py). -/
def statusCode : ChatError → Nat
  | .modelService _ => 503
  | .modelNotFound _ => 404
  | .contextLimitExceeded _ _ _ => 400

/-- Known adapter exceptions are re-raised unchanged by `generate_response` /
`generate_stream`. -/
def liftAdapter : AdapterError → ChatError
  | .modelServiceE m => .modelService m
  | .modelNotFoundE m => .modelNotFound m

instance {e a : Type} [DecidableEq e] [DecidableEq a] : DecidableEq (Except e a)
  | .error x, .error y =>
    if h : x = y then .isTrue (by rw [h]) else .isFalse (fun he => h (by injection he))
  | .error _, .ok _ => .isFalse (fun he => Except.noConfusion he)
  | .ok _, .error _ => .isFalse (fun he => Except.noConfusion he)
  | .ok x, .ok y =>
    if h : x = y then .isTrue (by rw [h]) else .isFalse (fun he => h (by injection he))

/-! ### The orchestrator pipelines -/

/-- `generate_response` (lines 249-327). The two provider adapters are the
excluded external collaborators and enter as parameters mapping
`(model_id, prompt)` to the backend's complete response text. A `ValueError`
from `_format_messages` is caught by the generic handler and wrapped into
`ModelServiceError` (lines 321-327); known exceptions are re-raised. The
context-window comparison never runs here: `_format_messages` only schedules
`_log_context_window_info` on a detached `asyncio.create_task` (line 98) that
is never awaited, so its exception cannot reach this call. -/
def generate_response_model (provider model_id : String) (messages : List Msg)
    (hfGen ollamaGen : String → List Char → Except AdapterError (List Char)) :
    Except ChatError (List Char × Option (List Char)) :=
  match format_messages provider messages with
  | .error msg => .error (.modelService ("Error generating response: " ++ msg))
  | .ok prompt =>
    if provider = "huggingface" then
      match hfGen model_id prompt with
      | .error e => .error (liftAdapter e)
      | .ok text => .ok (extract_thinking_content text)
    else if provider = "ollama" then
      match ollamaGen model_id prompt with
      | .error e => .error (liftAdapter e)
      | .ok text => .ok (extract_thinking_content text)
    else
      .error (.modelService
        ("Error generating response: Unsupported provider: " ++ provider))

/-- `generate_stream` (lines 329-469), with each provider adapter's stream
entering as a parameter mapping `(model_id, prompt)` to its list of raw text
fragments. Classification applies exactly when `_is_reasoning_model` holds. -/
def generate_stream_model (reasoningModels : List String)
    (provider model_id : String) (messages : List Msg)
    (hfStream ollamaStream : String → List Char → List (List Char)) :
    Except ChatError (List Emission) :=
  match format_messages provider messages with
  | .error msg => .error (.modelService ("Error in streaming response: " ++ msg))
  | .ok prompt =>
    if provider = "huggingface" then
      .ok (generate_stream_emissions (is_reasoning_model reasoningModels model_id)
        (hfStream model_id prompt))
    else if provider = "ollama" then
      .ok (generate_stream_emissions (is_reasoning_model reasoningModels model_id)
        (ollamaStream model_id prompt))
    else
      .error (.modelService
        ("Error in streaming response: Unsupported provider: " ++ provider))

/-! ### Token counting and the context-window registry (`token_counter.py`) -/

/-- The process-wide `_dynamic_context_windows` dict, as an explicit value. -/
def Reg : Type := String → Option Nat

def emptyReg : Reg := fun _ => none

def regSet (r : Reg) (k : String) (v : Nat) : Reg :=
  fun k' => if k' = k then some v else r k'

/-- Python `':' in model_id`. -/
def hasColon (m : String) : Bool := m.toList.any (fun c => c = ':')

/-- Python `model_id.split(':')[0]`. -/
def modelFamily (m : String) : String :=
  String.mk (m.toList.takeWhile (fun c => c != ':'))

/-- `TokenCounter.register_context_window` (lines 125-148): writes the exact
`provider/model_id` key and the bare `model_id` key unconditionally; when the
model id carries a `:` tag, also writes the family key and the
`provider/family` key, but only if the family key is unset, falsy, or larger
than the new value. -/
def register_context_window (reg : Reg) (provider model_id : String)
    (context_length : Nat) : Reg :=
  let full_id := provider ++ "/" ++ model_id
  let r2 := regSet (regSet reg full_id context_length) model_id context_length
  if hasColon model_id then
    let model_family := modelFamily model_id
    let update : Bool :=
      match r2 model_family with
      | none => true
      | some existing_length => existing_length == 0 || context_length < existing_length
    if update then
      regSet (regSet r2 model_family context_length)
        (provider ++ "/" ++ model_family) context_length
    else r2
  else r2

/-- The static `CONTEXT_WINDOWS` dict literal. -/
def CONTEXT_WINDOWS_TABLE : List (String × Nat) :=
  [("default", 4096), ("gpt-3.5-turbo", 4096), ("gpt-4", 8192),
   ("gpt-4-32k", 32768), ("llama2", 4096), ("llama3", 8192),
   ("mistral", 8192), ("mixtral", 32768), ("claude", 100000),
   ("gpt2", 1024), ("huggingface/default", 2048), ("ollama/default", 4096)]

/-- Membership/lookup in the static `CONTEXT_WINDOWS` dict. -/
def CONTEXT_WINDOWS (k : String) : Option Nat :=
  (CONTEXT_WINDOWS_TABLE.find? (fun e => e.1 == k)).map (fun e => e.2)

/-- Python `if dynamic_size:` truthiness on an optional int: a missing or zero
entry falls through to the continuation. -/
def orElseT (o : Option Nat) (k : Nat) : Nat :=
  match o with
  | some v => if v = 0 then k else v
  | none => k

/-- `TokenCounter.get_provider_context_window` (lines 151-203), transcribing
the code's fallback chain. -/
def get_provider_context_window (reg : Reg) (provider model_id : String) : Nat :=
  let full_id := provider ++ "/" ++ model_id
  let providerDefault : Nat :=
    match CONTEXT_WINDOWS (provider ++ "/default") with
    | some v => v
    | none => 4096
  let staticFamily : Nat :=
    if hasColon model_id then
      match CONTEXT_WINDOWS (modelFamily model_id) with
      | some v => v
      | none => providerDefault
    else providerDefault
  let staticExact : Nat :=
    match CONTEXT_WINDOWS full_id with
    | some v => v
    | none =>
      match CONTEXT_WINDOWS model_id with
      | some v => v
      | none => staticFamily
  let dynFamily : Nat :=
    if hasColon model_id then
      orElseT (reg (modelFamily model_id))
        (orElseT (reg (provider ++ "/" ++ modelFamily model_id)) staticExact)
    else staticExact
  orElseT (reg full_id) (orElseT (reg model_id) dynFamily)

/-- `TokenCounter._approximate_token_count`. -/
def approximate_token_count (text : List Char) : Nat := max 1 (text.length / 4)

/-- `TokenCounter.count_tokens`, with the external tiktoken encoder entering
as a parameter (`enc model text = some n` for a successful encode of length
`n`, `none` for an encoder failure, which falls back to the approximation). -/
def count_tokens (enc : String → List Char → Option Nat) (text : List Char)
    (model : String) : Nat :=
  if text.isEmpty then 0
  else
    match enc model text with
    | some n => n
    | none => approximate_token_count text

/-- `TokenCounter.estimate_messages_tokens` (lines 205-255). -/
def estimate_messages_tokens (enc : String → List Char → Option Nat)
    (messages : List Msg) (provider model_id : String) : Nat :=
  if messages.isEmpty then 0
  else
    let model := if provider = "ollama" then model_id
      else if provider = "huggingface" then "gpt2"
      else model_id
    let total := messages.foldl
      (fun acc m => acc + (count_tokens enc m.content.toList model + 4)) 0
    let fmt := messages.length * 3
    let fmt := if messages.any (fun m => m.role = "system") then fmt else fmt + 10
    total + fmt

/-- The body of `_log_context_window_info` (lines 163-209) that decides the
context-limit condition: raises `ContextLimitExceededError(token_count,
context_window, f"{provider}/{model_id}")` exactly when the estimate exceeds
the window. In the source this body only ever runs inside the detached task
spawned at line 98. -/
def log_context_window_check (enc : String → List Char → Option Nat) (reg : Reg)
    (provider model_id : String) (messages : List Msg) : Except ChatError Unit :=
  if estimate_messages_tokens enc messages provider model_id >
      get_provider_context_window reg provider model_id then
    .error (.contextLimitExceeded
      (estimate_messages_tokens enc messages provider model_id)
      (get_provider_context_window reg provider model_id)
      (provider ++ "/" ++ model_id))
  else .ok ()

/-! ### Marker-aligned fragment streams -/

theorem splitFirst_eq_none (sep f : List Char) (h : hasSub sep f = false) :
    splitFirst sep f = none := by
  unfold hasSub at h
  cases hsp : splitFirst sep f with
  | none => rfl
  | some x => rw [hsp] at h; simp at h

/-- A fragment containing neither marker. -/
def markerFree (f : List Char) : Prop :=
  hasSub opMarker f = false ∧ hasSub clMarker f = false

instance (f : List Char) : Decidable (markerFree f) := by
  unfold markerFree; infer_instance

/-- `ClsWF b ts r th`: starting in thinking mode `b`, the fragment stream `ts`
carries a well-formed alternating marker structure in which every marker
occurrence lies entirely inside a single fragment and every fragment holds at
most one marker occurrence; `r` and `th` are the concatenations of the content
outside and inside the marker spans, and the stream ends outside a span. -/
inductive ClsWF : Bool → List (List Char) → List Char → List Char → Prop
  | nil : ClsWF false [] [] []
  | plainOut (f ts r th) : markerFree f → ClsWF false ts r th →
      ClsWF false (f :: ts) (f ++ r) th
  | opn (pre post ts r th) : markerFree pre → markerFree post →
      ClsWF true ts r th →
      ClsWF false ((pre ++ opMarker ++ post) :: ts) (pre ++ r) (post ++ th)
  | plainIn (f ts r th) : markerFree f → ClsWF true ts r th →
      ClsWF true (f :: ts) r (f ++ th)
  | cls (pre post ts r th) : markerFree pre → markerFree post →
      ClsWF false ts r th →
      ClsWF true ((pre ++ clMarker ++ post) :: ts) (post ++ r) (pre ++ th)

/-- A trailing run of marker-free fragments (a stream that never closes its
thinking span). -/
inductive InTailWF : List (List Char) → List Char → Prop
  | nil : InTailWF [] []
  | cons (f ts th) : markerFree f → InTailWF ts th → InTailWF (f :: ts) (f ++ th)

/-! Step-computation lemmas for each fragment shape. -/

theorem stepToken_plain_out (st : CState) (f : List Char) (hf : markerFree f)
    (hst : st.inThinking = false) :
    stepToken true st f = (st, [⟨f, .response⟩]) := by
  unfold stepToken
  rw [splitFirst_eq_none _ _ hf.1, splitFirst_eq_none _ _ hf.2]
  simp [hst]

theorem stepToken_plain_in (st : CState) (f : List Char) (hf : markerFree f)
    (hst : st.inThinking = true) :
    stepToken true st f =
      if (st.buffer ++ f).length > 10 then (⟨true, []⟩, [⟨st.buffer ++ f, .thinking⟩])
      else (⟨true, st.buffer ++ f⟩, []) := by
  unfold stepToken
  rw [splitFirst_eq_none _ _ hf.1, splitFirst_eq_none _ _ hf.2]
  simp [hst]

theorem stepToken_open (st : CState) (pre post : List Char)
    (hpre : markerFree pre) :
    stepToken true st (pre ++ opMarker ++ post) =
      (⟨true, post⟩, if pre.isEmpty then [] else [⟨pre, .response⟩]) := by
  unfold stepToken
  rw [splitFirst_append_first _ _ _ hpre.1 opMarker_selfOverlapFree]
  simp

theorem stepToken_close (st : CState) (pre post : List Char)
    (hpre : markerFree pre) (hpost : markerFree post) :
    stepToken true st (pre ++ clMarker ++ post) =
      (⟨false, []⟩,
        (if (st.buffer ++ pre).isEmpty then [] else [⟨st.buffer ++ pre, .thinking⟩]) ++
        (if post.isEmpty then [] else [⟨post, .response⟩])) := by
  unfold stepToken
  have hop : splitFirst opMarker (pre ++ clMarker ++ post) = none := by
    apply splitFirst_eq_none
    rw [List.append_assoc]
    exact op_not_in_pre_cl_post pre post hpre.1 hpost.1
  rw [hop, splitFirst_append_first _ _ _ hpre.2 clMarker_selfOverlapFree]
  simp

theorem runTokens_cons (m : Bool) (st : CState) (t : List Char)
    (ts : List (List Char)) :
    runTokens m st (t :: ts) =
      ((runTokens m (stepToken m st t).1 ts).1,
        (stepToken m st t).2 ++ (runTokens m (stepToken m st t).1 ts).2) := rfl

theorem runTokens_append (m : Bool) (st : CState) (ts1 ts2 : List (List Char)) :
    runTokens m st (ts1 ++ ts2) =
      ((runTokens m (runTokens m st ts1).1 ts2).1,
        (runTokens m st ts1).2 ++ (runTokens m (runTokens m st ts1).1 ts2).2) := by
  induction ts1 generalizing st with
  | nil => simp [runTokens]
  | cons t ts1 ih =>
    simp only [List.cons_append, runTokens_cons, ih]
    simp

theorem chanText_append (ch : Channel) (e1 e2 : List Emission) :
    chanText ch (e1 ++ e2) = chanText ch e1 ++ chanText ch e2 := by
  simp [chanText]

theorem chanText_nil (ch : Channel) : chanText ch [] = [] := rfl

theorem chanText_resp_resp (t : List Char) :
    chanText .response [⟨t, .response⟩] = t := by simp [chanText]

theorem chanText_think_resp (t : List Char) :
    chanText .thinking [⟨t, .response⟩] = [] := by simp [chanText]

theorem chanText_resp_think (t : List Char) :
    chanText .response [⟨t, .thinking⟩] = [] := by simp [chanText]

theorem chanText_think_think (t : List Char) :
    chanText .thinking [⟨t, .thinking⟩] = t := by simp [chanText]

/-- Soundness of the streaming loop on marker-aligned streams: starting from a
state consistent with the alignment, the loop ends outside thinking mode with
an empty buffer, the response channel carries exactly the outside content, and
the thinking channel carries the initial buffer followed by the inside
content. -/
theorem runTokens_clswf (b : Bool) (ts : List (List Char)) (r th : List Char)
    (h : ClsWF b ts r th) :
    ∀ bts : List Char, (b = false → bts = []) →
      (runTokens true ⟨b, bts⟩ ts).1 = ⟨false, []⟩ ∧
      chanText .response (runTokens true ⟨b, bts⟩ ts).2 = r ∧
      chanText .thinking (runTokens true ⟨b, bts⟩ ts).2 = bts ++ th := by
  induction h with
  | nil =>
    intro bts hb
    rw [hb rfl]
    exact ⟨rfl, rfl, rfl⟩
  | plainOut f ts r th hf hts ih =>
    intro bts hb
    rw [hb rfl]
    rw [runTokens_cons, stepToken_plain_out ⟨false, []⟩ f hf rfl]
    obtain ⟨h1, h2, h3⟩ := ih [] (fun _ => rfl)
    refine ⟨h1, ?_, ?_⟩
    · rw [chanText_append, chanText_resp_resp, h2]
    · rw [chanText_append, chanText_think_resp, h3]
      simp
  | opn pre post ts r th hpre hpost hts ih =>
    intro bts hb
    rw [hb rfl]
    rw [runTokens_cons, stepToken_open ⟨false, []⟩ pre post hpre]
    obtain ⟨h1, h2, h3⟩ := ih post (by simp)
    refine ⟨h1, ?_, ?_⟩
    · rw [chanText_append, h2]
      by_cases hp : pre.isEmpty
      · rw [List.isEmpty_iff] at hp
        rw [hp]
        simp [chanText_nil]
      · rw [if_neg (by simp [hp]), chanText_resp_resp]
    · rw [chanText_append, h3]
      by_cases hp : pre.isEmpty
      · rw [if_pos hp, chanText_nil]
      · rw [if_neg (by simp [hp]), chanText_think_resp]
  | plainIn f ts r th hf hts ih =>
    intro bts _
    rw [runTokens_cons, stepToken_plain_in ⟨true, bts⟩ f hf rfl]
    by_cases hl : (bts ++ f).length > 10
    · rw [if_pos hl]
      obtain ⟨h1, h2, h3⟩ := ih [] (by simp)
      refine ⟨h1, ?_, ?_⟩
      · rw [chanText_append, chanText_resp_think, h2]
        simp
      · rw [chanText_append, chanText_think_think, h3]
        simp
    · rw [if_neg hl]
      obtain ⟨h1, h2, h3⟩ := ih (bts ++ f) (by simp)
      refine ⟨h1, ?_, ?_⟩
      · rw [chanText_append, chanText_nil, h2]
        simp
      · rw [chanText_append, chanText_nil, h3]
        simp
  | cls pre post ts r th hpre hpost hts ih =>
    intro bts _
    rw [runTokens_cons, stepToken_close ⟨true, bts⟩ pre post hpre hpost]
    obtain ⟨h1, h2, h3⟩ := ih [] (fun _ => rfl)
    refine ⟨h1, ?_, ?_⟩
    · rw [chanText_append, chanText_append, h2]
      have hA : chanText Channel.response
          (if (bts ++ pre).isEmpty then ([] : List Emission)
           else [⟨bts ++ pre, .thinking⟩]) = [] := by
        by_cases hb : (bts ++ pre).isEmpty
        · rw [if_pos hb, chanText_nil]
        · rw [if_neg hb, chanText_resp_think]
      rw [hA]
      by_cases hp : post.isEmpty
      · rw [List.isEmpty_iff] at hp
        rw [hp]
        simp [chanText_nil]
      · rw [if_neg (by simp [hp]), chanText_resp_resp]
        simp
    · rw [chanText_append, chanText_append, h3]
      have hB : chanText Channel.thinking
          (if post.isEmpty then ([] : List Emission)
           else [⟨post, .response⟩]) = [] := by
        by_cases hp : post.isEmpty
        · rw [if_pos hp, chanText_nil]
        · rw [if_neg hp, chanText_think_resp]
      rw [hB]
      by_cases hb : (bts ++ pre).isEmpty
      · rw [if_pos hb, chanText_nil]
        rw [List.isEmpty_iff, List.append_eq_nil] at hb
        rw [hb.1, hb.2]
        simp
      · rw [if_neg hb, chanText_think_think]
        simp

/-- Soundness of the classification over a whole stream, including the final
buffer flush. -/
theorem generate_stream_emissions_clswf (ts : List (List Char)) (r th : List Char)
    (h : ClsWF false ts r th) :
    chanText .response (generate_stream_emissions true ts) = r ∧
    chanText .thinking (generate_stream_emissions true ts) = th := by
  obtain ⟨h1, h2, h3⟩ := runTokens_clswf false ts r th h [] (fun _ => rfl)
  unfold generate_stream_emissions
  rw [h1]
  constructor
  · rw [chanText_append, h2]
    simp [chanText_nil]
  · rw [chanText_append, h3]
    simp [chanText_nil]

/-- Running the loop inside an unterminated thinking span: nothing reaches the
response channel, and the emitted thinking content plus the final buffer is
exactly the initial buffer followed by the trailing content. -/
theorem runTokens_intail (ts : List (List Char)) (th : List Char)
    (h : InTailWF ts th) :
    ∀ bts : List Char,
      (runTokens true ⟨true, bts⟩ ts).1.inThinking = true ∧
      chanText .response (runTokens true ⟨true, bts⟩ ts).2 = [] ∧
      chanText .thinking (runTokens true ⟨true, bts⟩ ts).2 ++
        (runTokens true ⟨true, bts⟩ ts).1.buffer = bts ++ th := by
  induction h with
  | nil =>
    intro bts
    exact ⟨rfl, rfl, by simp [runTokens, chanText]⟩
  | cons f ts th hf hts ih =>
    intro bts
    rw [runTokens_cons, stepToken_plain_in ⟨true, bts⟩ f hf rfl]
    by_cases hl : (bts ++ f).length > 10
    · rw [if_pos hl]
      obtain ⟨h1, h2, h3⟩ := ih []
      refine ⟨h1, ?_, ?_⟩
      · rw [chanText_append, chanText_resp_think, h2]
        simp
      · rw [chanText_append, chanText_think_think, List.append_assoc, h3]
        simp
    · rw [if_neg hl]
      obtain ⟨h1, h2, h3⟩ := ih (bts ++ f)
      refine ⟨h1, ?_, ?_⟩
      · rw [chanText_append, chanText_nil, h2]
        simp
      · rw [chanText_append, chanText_nil, List.nil_append, h3]
        simp

/-! ### Well-formed span structure of a complete text -/

/-- `spansText ps last`: the text `o₁<think>i₁</think> … oₙ<think>iₙ</think>last`
described by its outside/inside segments. -/
def spansText : List (List Char × List Char) → List Char → List Char
  | [], last => last
  | (o, i) :: ps, last => o ++ opMarker ++ i ++ clMarker ++ spansText ps last

/-- The text with every marker-delimited span and the markers removed. -/
def spansResp : List (List Char × List Char) → List Char → List Char
  | [], last => last
  | (o, _) :: ps, last => o ++ spansResp ps last

/-- The concatenation of the marker-delimited inner contents, in order. -/
def spansThink : List (List Char × List Char) → List Char
  | [] => []
  | (_, i) :: ps => i ++ spansThink ps

/-- All segments of the span decomposition are marker-free. -/
def spansOK : List (List Char × List Char) → List Char → Prop
  | [], last => markerFree last
  | (o, i) :: ps, last => markerFree o ∧ markerFree i ∧ spansOK ps last

instance : (ps : List (List Char × List Char)) → (last : List Char) →
    Decidable (spansOK ps last)
  | [], _ => by unfold spansOK; infer_instance
  | (_, _) :: ps, last =>
    have : Decidable (spansOK ps last) := instDecidableSpansOK ps last
    by unfold spansOK; infer_instance

theorem findSpan_spans_cons (o i : List Char) (ps : List (List Char × List Char))
    (last : List Char) (ho : markerFree o) (hi : markerFree i) :
    findSpan (spansText ((o, i) :: ps) last) =
      some (o, i, spansText ps last) := by
  have h1 : spansText ((o, i) :: ps) last =
      (o ++ opMarker ++ (i ++ clMarker ++ spansText ps last)) := by
    show o ++ opMarker ++ i ++ clMarker ++ spansText ps last = _
    simp [List.append_assoc]
  unfold findSpan
  rw [h1, splitFirst_append_first _ _ _ ho.1 opMarker_selfOverlapFree]
  dsimp only
  rw [splitFirst_append_first _ _ _ hi.2 clMarker_selfOverlapFree]

theorem findSpan_spans_nil (last : List Char) (h : markerFree last) :
    findSpan (spansText [] last) = none := by
  unfold spansText findSpan
  rw [splitFirst_eq_none _ _ h.1]

theorem subAllF_spans (ps : List (List Char × List Char)) (last : List Char) :
    spansOK ps last → ∀ n, ps.length ≤ n →
      subAllF n (spansText ps last) = spansResp ps last := by
  induction ps with
  | nil =>
    intro h n _
    cases n with
    | zero => rfl
    | succ m =>
      unfold subAllF
      rw [findSpan_spans_nil last h]
      rfl
  | cons p ps ih =>
    obtain ⟨o, i⟩ := p
    rintro ⟨ho, hi, hok⟩ n hn
    cases n with
    | zero => simp at hn
    | succ m =>
      unfold subAllF
      rw [findSpan_spans_cons o i ps last ho hi]
      dsimp only
      rw [ih hok m (by simpa using hn)]
      rfl

theorem spansText_length (ps : List (List Char × List Char)) (last : List Char) :
    ps.length ≤ (spansText ps last).length := by
  induction ps with
  | nil => simp
  | cons p ps ih =>
    obtain ⟨o, i⟩ := p
    show ((o, i) :: ps).length ≤ (o ++ opMarker ++ i ++ clMarker ++ spansText ps last).length
    have h7 : opMarker.length = 7 := rfl
    have h8 : clMarker.length = 8 := rfl
    simp only [List.length_cons, List.length_append]
    omega

theorem subAll_spans (ps : List (List Char × List Char)) (last : List Char)
    (h : spansOK ps last) : subAll (spansText ps last) = spansResp ps last :=
  subAllF_spans ps last h _ (spansText_length ps last)

theorem extract_spans_nil (last : List Char) (h : markerFree last) :
    extract_thinking_content (spansText [] last) = (last, none) := by
  unfold extract_thinking_content
  rw [findSpan_spans_nil last h]
  rfl

theorem extract_spans_cons (o i : List Char) (ps : List (List Char × List Char))
    (last : List Char) (h : spansOK ((o, i) :: ps) last) :
    extract_thinking_content (spansText ((o, i) :: ps) last) =
      (pyStrip (spansResp ((o, i) :: ps) last), some (pyStrip i)) := by
  obtain ⟨ho, hi, hok⟩ := h
  unfold extract_thinking_content
  rw [findSpan_spans_cons o i ps last ho hi]
  dsimp only
  rw [subAll_spans ((o, i) :: ps) last ⟨ho, hi, hok⟩]

/-- The canonical marker-aligned fragmentation of a span-structured text. -/
def spansFrags : List (List Char × List Char) → List Char → List (List Char)
  | [], last => [last]
  | (o, i) :: ps, last => (o ++ opMarker ++ i) :: clMarker :: spansFrags ps last

theorem spansFrags_flatten (ps : List (List Char × List Char)) (last : List Char) :
    (spansFrags ps last).flatten = spansText ps last := by
  induction ps with
  | nil => simp [spansFrags, spansText]
  | cons p ps ih =>
    obtain ⟨o, i⟩ := p
    show (o ++ opMarker ++ i) ++ (clMarker :: spansFrags ps last).flatten =
      o ++ opMarker ++ i ++ clMarker ++ spansText ps last
    simp [ih, List.append_assoc]

theorem markerFree_nil : markerFree [] := by decide

theorem clswf_spansFrags (ps : List (List Char × List Char)) (last : List Char)
    (h : spansOK ps last) :
    ClsWF false (spansFrags ps last) (spansResp ps last) (spansThink ps) := by
  induction ps with
  | nil =>
    have := ClsWF.plainOut last [] [] [] h ClsWF.nil
    simpa using this
  | cons p ps ih =>
    obtain ⟨o, i⟩ := p
    obtain ⟨ho, hi, hok⟩ := h
    have h1 : ClsWF true (clMarker :: spansFrags ps last)
        (spansResp ps last) (spansThink ps) := by
      have := ClsWF.cls [] [] (spansFrags ps last) (spansResp ps last)
        (spansThink ps) markerFree_nil markerFree_nil (ih hok)
      simpa using this
    have := ClsWF.opn o i (clMarker :: spansFrags ps last) (spansResp ps last)
      (spansThink ps) ho hi h1
    exact this

theorem chanText_resp_flush (buf : List Char) :
    chanText .response
      (if buf.isEmpty then ([] : List Emission) else [⟨buf, .thinking⟩]) = [] := by
  by_cases h : buf.isEmpty
  · rw [if_pos h, chanText_nil]
  · rw [if_neg h, chanText_resp_think]

theorem chanText_think_flush (buf : List Char) :
    chanText .thinking
      (if buf.isEmpty then ([] : List Emission) else [⟨buf, .thinking⟩]) = buf := by
  by_cases h : buf.isEmpty
  · rw [if_pos h, chanText_nil]
    rw [List.isEmpty_iff] at h
    rw [h]
  · rw [if_neg h, chanText_think_think]

theorem chanText_resp_openEmit (pre : List Char) :
    chanText .response
      (if pre.isEmpty then ([] : List Emission) else [⟨pre, .response⟩]) = pre := by
  by_cases h : pre.isEmpty
  · rw [if_pos h, chanText_nil]
    rw [List.isEmpty_iff] at h
    rw [h]
  · rw [if_neg h, chanText_resp_resp]

theorem chanText_think_openEmit (pre : List Char) :
    chanText .thinking
      (if pre.isEmpty then ([] : List Emission) else [⟨pre, .response⟩]) = [] := by
  by_cases h : pre.isEmpty
  · rw [if_pos h, chanText_nil]
  · rw [if_neg h, chanText_think_resp]

/-! ### Claim C1 -/

/-- C1, counterexample: the fragment stream `["<think>abc</think>def"]` has a
concatenation with exactly one well-formed `<think>…</think>` span (outside
content `"def"`, inner content `"abc"`), yet the classifier of
`generate_stream` emits nothing on the response channel and emits
`"abc</think>def"` — closing marker included — on the thinking channel:
when one fragment contains both markers, only the `'<think>' in token` branch
runs and everything after the opening marker is buffered as thinking. -/
theorem C1_counterexample :
    spansOK [(([] : List Char), "abc".toList)] "def".toList ∧
    spansText [(([] : List Char), "abc".toList)] "def".toList =
      "<think>abc</think>def".toList ∧
    spansResp [(([] : List Char), "abc".toList)] "def".toList = "def".toList ∧
    spansThink [(([] : List Char), "abc".toList)] = "abc".toList ∧
    chanText .response
      (generate_stream_emissions true ["<think>abc</think>def".toList]) = [] ∧
    chanText .thinking
      (generate_stream_emissions true ["<think>abc</think>def".toList]) =
      "abc</think>def".toList ∧
    chanText .response
        (generate_stream_emissions true ["<think>abc</think>def".toList]) ≠
      spansResp [(([] : List Char), "abc".toList)] "def".toList ∧
    chanText .thinking
        (generate_stream_emissions true ["<think>abc</think>def".toList]) ≠
      spansThink [(([] : List Char), "abc".toList)] := by
  decide

/-- C1 (amended): for a reasoning-capable model, and provided every marker
occurrence lies entirely inside a single stream fragment with at most one
marker occurrence per fragment (the `ClsWF` alignment), the streaming
classifier in `generate_stream` is a lossless re-partition: the
response-channel concatenation equals the outside-span content with the
markers deleted, and the thinking-channel concatenation equals the
concatenation of the marker-delimited inner contents, in order. -/
theorem C1_stream_round_trip_aligned (reasoningModels : List String)
    (model_id : String)
    (hrm : is_reasoning_model reasoningModels model_id = true)
    (ts : List (List Char)) (r th : List Char) (hwf : ClsWF false ts r th) :
    chanText .response (generate_stream_emissions
      (is_reasoning_model reasoningModels model_id) ts) = r ∧
    chanText .thinking (generate_stream_emissions
      (is_reasoning_model reasoningModels model_id) ts) = th := by
  rw [hrm]
  exact generate_stream_emissions_clswf ts r th hwf

/-- Witness for C1: `["a<think>b", "</think>", "c"]`, the canonical aligned
fragmentation of `"a<think>b</think>c"`, re-partitions into response `"ac"`
and thinking `"b"`. -/
theorem C1_stream_round_trip_aligned_witness :
    chanText .response (generate_stream_emissions
      (is_reasoning_model ["deepseek"] "deepseek-r1:latest")
      (spansFrags [("a".toList, "b".toList)] "c".toList)) = "ac".toList ∧
    chanText .thinking (generate_stream_emissions
      (is_reasoning_model ["deepseek"] "deepseek-r1:latest")
      (spansFrags [("a".toList, "b".toList)] "c".toList)) = "b".toList := by
  have h := C1_stream_round_trip_aligned ["deepseek"] "deepseek-r1:latest"
    (by decide) (spansFrags [("a".toList, "b".toList)] "c".toList)
    (spansResp [("a".toList, "b".toList)] "c".toList)
    (spansThink [("a".toList, "b".toList)])
    (clswf_spansFrags [("a".toList, "b".toList)] "c".toList (by decide))
  exact ⟨h.1.trans (by decide), h.2.trans (by decide)⟩

/-! ### Claim C8 -/

/-- C8, counterexample: splitting the marker itself across two fragments
(`"<thi"` + `"nk>abc"`) does not yield the same channel partition as the whole
input in one fragment: the split run emits the entire text, marker included,
on the response channel, while the single-fragment run routes `"abc"` to
thinking. -/
theorem C8_counterexample :
    "<thi".toList ++ "nk>abc".toList = "<think>abc".toList ∧
    chanText .response
      (generate_stream_emissions true ["<thi".toList, "nk>abc".toList]) =
      "<think>abc".toList ∧
    chanText .thinking
      (generate_stream_emissions true ["<thi".toList, "nk>abc".toList]) = [] ∧
    chanText .response
      (generate_stream_emissions true ["<think>abc".toList]) = [] ∧
    chanText .thinking
      (generate_stream_emissions true ["<think>abc".toList]) = "abc".toList := by
  decide

/-- C8 (amended): two fragmentations of the same input agree on the channel
partition provided both keep every marker occurrence whole inside a single
fragment with at most one marker per fragment (both carry the same `ClsWF`
span structure); equality with the whole-input-as-one-fragment run holds only
when that single fragment is itself so aligned. -/
theorem C8_aligned_splits_agree (ts ts' : List (List Char)) (r th : List Char)
    (h : ClsWF false ts r th) (h' : ClsWF false ts' r th) :
    chanText .response (generate_stream_emissions true ts) =
      chanText .response (generate_stream_emissions true ts') ∧
    chanText .thinking (generate_stream_emissions true ts) =
      chanText .thinking (generate_stream_emissions true ts') := by
  obtain ⟨a1, a2⟩ := generate_stream_emissions_clswf ts r th h
  obtain ⟨b1, b2⟩ := generate_stream_emissions_clswf ts' r th h'
  exact ⟨a1.trans b1.symm, a2.trans b2.symm⟩

/-- Witness for C8: the canonical split `["a<think>b", "</think>", "c"]` and
the finer split `["a", "<think>b", "</think>c"]` of `"a<think>b</think>c"`
produce identical channel partitions. -/
theorem C8_aligned_splits_agree_witness :
    chanText .response (generate_stream_emissions true
        (spansFrags [("a".toList, "b".toList)] "c".toList)) =
      chanText .response (generate_stream_emissions true
        ["a".toList, "<think>b".toList, "</think>c".toList]) ∧
    chanText .thinking (generate_stream_emissions true
        (spansFrags [("a".toList, "b".toList)] "c".toList)) =
      chanText .thinking (generate_stream_emissions true
        ["a".toList, "<think>b".toList, "</think>c".toList]) := by
  refine C8_aligned_splits_agree _ _
    (spansResp [("a".toList, "b".toList)] "c".toList)
    (spansThink [("a".toList, "b".toList)])
    (clswf_spansFrags [("a".toList, "b".toList)] "c".toList (by decide)) ?_
  have h1 : ClsWF true ["</think>c".toList] "c".toList [] :=
    ClsWF.cls [] "c".toList [] [] [] (by decide) (by decide) ClsWF.nil
  have h2 : ClsWF false ["<think>b".toList, "</think>c".toList]
      "c".toList "b".toList :=
    ClsWF.opn [] "b".toList ["</think>c".toList] "c".toList [] (by decide)
      (by decide) h1
  exact ClsWF.plainOut "a".toList _ _ _ (by decide) h2

/-! ### Claim C9 -/

/-- C9, counterexample: the stream `["<think>a", "<think>b"]` (on a
reasoning-capable model) contains the opening marker and never a closing one,
yet the content `"a"` after the first opening marker reaches neither channel:
a second `'<think>' in token` branch resets `buffered_thinking` and drops it.
Only `"b"` survives to the final thinking flush. -/
theorem C9_counterexample :
    chanText .response
      (generate_stream_emissions true ["<think>a".toList, "<think>b".toList]) = [] ∧
    chanText .thinking
      (generate_stream_emissions true ["<think>a".toList, "<think>b".toList]) =
      "b".toList := by
  decide

/-- C9 (amended): for a reasoning-capable model, a stream consisting of an
aligned well-formed prefix, then a fragment containing exactly one `<think>`
(wholly inside it) and no `</think>`, then only marker-free fragments, routes
all content after the opening marker to the thinking channel by stream end —
any still-buffered thinking content is flushed as a final thinking fragment at
stream close, never dropped and never emitted on the response channel. -/
theorem C9_unterminated_flushes_thinking (reasoningModels : List String)
    (model_id : String)
    (hrm : is_reasoning_model reasoningModels model_id = true)
    (ts0 : List (List Char)) (r th : List Char) (h0 : ClsWF false ts0 r th)
    (pre post : List Char) (hpre : markerFree pre) (hpost : markerFree post)
    (ts1 : List (List Char)) (tail : List Char) (h1 : InTailWF ts1 tail) :
    chanText .response (generate_stream_emissions
      (is_reasoning_model reasoningModels model_id)
      (ts0 ++ (pre ++ opMarker ++ post) :: ts1)) = r ++ pre ∧
    chanText .thinking (generate_stream_emissions
      (is_reasoning_model reasoningModels model_id)
      (ts0 ++ (pre ++ opMarker ++ post) :: ts1)) = th ++ post ++ tail := by
  rw [hrm]
  obtain ⟨s0, r0, t0⟩ := runTokens_clswf false ts0 r th h0 [] (fun _ => rfl)
  obtain ⟨s1, r1, t1⟩ := runTokens_intail ts1 tail h1 post
  unfold generate_stream_emissions
  rw [runTokens_append, s0, runTokens_cons,
    stepToken_open ⟨false, []⟩ pre post hpre]
  constructor
  · rw [chanText_append, chanText_append, r0, chanText_append,
      chanText_resp_openEmit, r1, chanText_resp_flush]
    simp
  · rw [chanText_append, chanText_append, t0, chanText_append,
      chanText_think_openEmit, chanText_think_flush]
    simp only [List.nil_append, List.append_assoc]
    rw [t1]

/-- Witness for C9: prefix `"x"`, then `"<think>y"`, then trailing `"z"` with
no closing marker: response is `"x"`, thinking is `"yz"` (trailing content
flushed at stream end). -/
theorem C9_unterminated_flushes_thinking_witness :
    chanText .response (generate_stream_emissions
      (is_reasoning_model ["deepseek"] "deepseek-r1:latest")
      (["x".toList] ++ ([] ++ opMarker ++ "y".toList) :: ["z".toList])) =
      "x".toList ∧
    chanText .thinking (generate_stream_emissions
      (is_reasoning_model ["deepseek"] "deepseek-r1:latest")
      (["x".toList] ++ ([] ++ opMarker ++ "y".toList) :: ["z".toList])) =
      "yz".toList := by
  have h := C9_unterminated_flushes_thinking ["deepseek"] "deepseek-r1:latest"
    (by decide) ["x".toList] ("x".toList) []
    (by
      have := ClsWF.plainOut "x".toList [] [] [] (by decide) ClsWF.nil
      simpa using this)
    [] "y".toList (by decide) (by decide) ["z".toList] "z".toList
    (by
      have := InTailWF.cons "z".toList [] [] (by decide) InTailWF.nil
      simpa using this)
  exact ⟨h.1.trans (by decide), h.2.trans (by decide)⟩

/-! ### Claim C2 -/

/-- C2, counterexample: with the Ollama adapter streaming
`["a ", "<think>x", "</think>"]` (a marker-aligned split whose concatenation
`"a <think>x</think>"` equals the non-streaming backend text), the streamed
response-channel concatenation is `"a "`, while the non-streaming
`generate_response` returns response `"a"`: `_extract_thinking_content`
applies `.strip()` after deleting the span, the streaming path never strips. -/
theorem C2_counterexample :
    ["a ".toList, "<think>x".toList, "</think>".toList].flatten =
      "a <think>x</think>".toList ∧
    generate_stream_model ["deepseek"] "ollama" "deepseek-r1:latest"
        [⟨"user", "hi"⟩] (fun _ _ => [])
        (fun _ _ => ["a ".toList, "<think>x".toList, "</think>".toList]) =
      .ok [⟨"a ".toList, .response⟩, ⟨"x".toList, .thinking⟩] ∧
    chanText .response [⟨"a ".toList, .response⟩, ⟨"x".toList, .thinking⟩] =
      "a ".toList ∧
    generate_response_model "ollama" "deepseek-r1:latest" [⟨"user", "hi"⟩]
        (fun _ _ => .error (.modelServiceE "unused"))
        (fun _ _ => .ok "a <think>x</think>".toList) =
      .ok ("a".toList, some "x".toList) ∧
    "a ".toList ≠ "a".toList := by
  decide

/-- C2 (amended): for a reasoning-capable model, when the adapter streams a
marker-aligned fragmentation of the span-structured text that the
non-streaming adapter call returns: if the text contains no span, the
response-channel concatenation equals the non-streaming response verbatim; if
it contains at least one span, the response-channel concatenation equals the
non-streaming response only after stripping surrounding whitespace
(`_extract_thinking_content` strips, the streaming path does not). -/
theorem C2_streaming_vs_nonstreaming (reasoningModels : List String)
    (model_id : String)
    (hrm : is_reasoning_model reasoningModels model_id = true)
    (ps : List (List Char × List Char)) (last : List Char)
    (hok : spansOK ps last) (ts : List (List Char))
    (hcls : ClsWF false ts (spansResp ps last) (spansThink ps))
    (hjoin : ts.flatten = spansText ps last) :
    (ps = [] →
      chanText .response (generate_stream_emissions
        (is_reasoning_model reasoningModels model_id) ts) =
      (extract_thinking_content (spansText ps last)).1) ∧
    (ps ≠ [] →
      pyStrip (chanText .response (generate_stream_emissions
        (is_reasoning_model reasoningModels model_id) ts)) =
      (extract_thinking_content (spansText ps last)).1) := by
  rw [hrm]
  obtain ⟨hr, _⟩ := generate_stream_emissions_clswf _ _ _ hcls
  constructor
  · intro hps
    subst hps
    rw [hr, extract_spans_nil last hok]
    rfl
  · intro hps
    cases ps with
    | nil => exact absurd rfl hps
    | cons p ps' =>
      obtain ⟨o, i⟩ := p
      rw [hr, extract_spans_cons o i ps' last hok]

/-- Witness for C2: text `"a <think>x</think>"` streamed as its canonical
aligned fragmentation: the stripped streaming response equals the
non-streaming response, which is `"a"`. -/
theorem C2_streaming_vs_nonstreaming_witness :
    pyStrip (chanText .response (generate_stream_emissions
      (is_reasoning_model ["deepseek"] "deepseek-r1:latest")
      (spansFrags [("a ".toList, "x".toList)] []))) =
      (extract_thinking_content (spansText [("a ".toList, "x".toList)] [])).1 ∧
    (extract_thinking_content (spansText [("a ".toList, "x".toList)] [])).1 =
      "a".toList := by
  have h := C2_streaming_vs_nonstreaming ["deepseek"] "deepseek-r1:latest"
    (by decide) [("a ".toList, "x".toList)] [] (by decide)
    (spansFrags [("a ".toList, "x".toList)] [])
    (clswf_spansFrags [("a ".toList, "x".toList)] [] (by decide))
    (spansFrags_flatten [("a ".toList, "x".toList)] [])
  exact ⟨h.2 (by simp), by decide⟩

/-! ### Claim C4 -/

/-- C4: the claim is right and the code is wrong. `generate_response` calls
`_extract_thinking_content` unconditionally — the comment above the call says
"Check if the model is a reasoning model" but no check exists, and
`_is_reasoning_model` is never consulted on this path. For any model the
configured reasoning list does not match, a raw backend output containing a
literal `<think>…</think>` span still produces `thinking = "x"`, not `None`. -/
theorem C4_nonreasoning_model_thinking_not_none (reasoningModels : List String)
    (model_id : String)
    (hnr : is_reasoning_model reasoningModels model_id = false) :
    generate_response_model "ollama" model_id [⟨"user", "hi"⟩]
        (fun _ _ => .error (.modelServiceE "unused"))
        (fun _ _ => .ok "<think>x</think>y".toList) =
      .ok ("y".toList, some "x".toList) := by
  rfl

/-- Witness for C4: `"gpt2"` matches no entry of a representative configured
reasoning-model list, yet thinking is extracted. -/
theorem C4_nonreasoning_model_thinking_not_none_witness :
    is_reasoning_model ["mixtral", "llama3", "qwen", "claude", "yi", "deepseek",
      "mistral", "openhermes"] "gpt2" = false ∧
    generate_response_model "ollama" "gpt2" [⟨"user", "hi"⟩]
        (fun _ _ => .error (.modelServiceE "unused"))
        (fun _ _ => .ok "<think>x</think>y".toList) =
      .ok ("y".toList, some "x".toList) :=
  ⟨by decide, C4_nonreasoning_model_thinking_not_none
    ["mixtral", "llama3", "qwen", "claude", "yi", "deepseek", "mistral",
      "openhermes"] "gpt2" (by decide)⟩

/-! ### Claim C5 -/

/-- C5, counterexample: `_format_messages("unknown_provider", …)` raises the
builtin `ValueError("Unsupported provider: …")`, not a distinct error class —
the repository defines no `UnsupportedProviderError` — and `generate_response`
wraps it into `ModelServiceError`, whose status is 503 (5xx), not a
4xx-equivalent. -/
theorem C5_counterexample :
    format_messages "unknown_provider" [⟨"user", "hi"⟩] =
      .error "Unsupported provider: unknown_provider" ∧
    generate_response_model "unknown_provider" "m" [⟨"user", "hi"⟩]
        (fun _ _ => .ok []) (fun _ _ => .ok []) =
      .error (.modelService
        "Error generating response: Unsupported provider: unknown_provider") ∧
    statusCode (.modelService
      "Error generating response: Unsupported provider: unknown_provider") = 503 ∧
    ¬ statusCode (.modelService
      "Error generating response: Unsupported provider: unknown_provider") < 500 := by
  decide

theorem format_messages_foldl (msgs : List Msg) (acc : List Char) :
    msgs.foldl
      (fun acc m => acc ++ pyCapitalize m.role ++ ": ".toList ++
        m.content.toList ++ ['\n']) acc =
    acc ++ (msgs.map (fun m => pyCapitalize m.role ++ ": ".toList ++
      m.content.toList ++ ['\n'])).flatten := by
  induction msgs generalizing acc with
  | nil => simp
  | cons m ms ih =>
    rw [List.foldl_cons, ih]
    simp [List.append_assoc]

/-- C5 (amended): for every provider other than the two supported backends,
`_format_messages` raises builtin `ValueError("Unsupported provider: …")` with
no partial output, and `generate_response` surfaces it wrapped as
`ModelServiceError` (503), not a distinct 4xx error kind; for the two
supported providers it returns each message rendered as capitalized role,
`": "`, content, and a newline, concatenated in message order, with a trailing
`"Assistant: "` cue. -/
theorem C5_format_messages_behaviour (provider : String) (messages : List Msg) :
    (provider ≠ "huggingface" → provider ≠ "ollama" →
      format_messages provider messages =
        .error ("Unsupported provider: " ++ provider) ∧
      ∀ model_id hfGen ollamaGen,
        generate_response_model provider model_id messages hfGen ollamaGen =
          .error (.modelService
            ("Error generating response: " ++
              ("Unsupported provider: " ++ provider)))) ∧
    ((provider = "huggingface" ∨ provider = "ollama") →
      format_messages provider messages =
        .ok ((messages.map (fun m => pyCapitalize m.role ++ ": ".toList ++
          m.content.toList ++ ['\n'])).flatten ++ "Assistant: ".toList)) := by
  constructor
  · intro h1 h2
    have hfm : format_messages provider messages =
        .error ("Unsupported provider: " ++ provider) := by
      unfold format_messages
      rw [if_neg h1, if_neg h2]
    refine ⟨hfm, ?_⟩
    intro model_id hfGen ollamaGen
    unfold generate_response_model
    rw [hfm]
  · intro h
    rcases h with h | h <;>
      · subst h
        unfold format_messages
        simp only [if_true, if_false, reduceIte]
        rw [format_messages_foldl]
        simp

/-- Witness for C5: an unknown provider fails with the wrapped ValueError, and
`"ollama"` renders `[{user, hi}]` as `"User: hi\nAssistant: "`. -/
theorem C5_format_messages_behaviour_witness :
    format_messages "grok" [⟨"user", "hi"⟩] =
      .error "Unsupported provider: grok" ∧
    format_messages "ollama" [⟨"user", "hi"⟩] =
      .ok "User: hi\nAssistant: ".toList := by
  constructor
  · exact ((C5_format_messages_behaviour "grok" [⟨"user", "hi"⟩]).1
      (by decide) (by decide)).1
  · exact ((C5_format_messages_behaviour "ollama" [⟨"user", "hi"⟩]).2
      (Or.inr rfl)).trans (by decide)

/-! ### Claim C3 -/

/-- C3: the claim is right and the code is wrong. The token-vs-capacity
comparison lives in `_log_context_window_info`, which is only ever run on the
detached task spawned by `asyncio.create_task` in `_format_messages`
(line 98) and is never awaited, so the `ContextLimitExceededError` it raises
can never propagate to `generate_response` / `generate_stream` — even though
both docstrings promise "Raises: ContextLimitExceededError". The theorem:
(1, 2) neither orchestrator entry point can ever surface the error, for any
inputs; (3, 4) the detached check itself raises exactly when the estimate
exceeds the window, carrying token count, window and `provider/model_id`;
(5, 6) at a concrete over-limit input (estimate 19 tokens against a
registered window of 10) the check raises while `generate_response` on the
same request still reaches the provider and succeeds. -/
theorem C3_context_limit_never_propagates :
    (∀ provider model_id messages hfGen ollamaGen tc cw mid,
      generate_response_model provider model_id messages hfGen ollamaGen ≠
        .error (.contextLimitExceeded tc cw mid)) ∧
    (∀ rms provider model_id messages hfStream ollamaStream tc cw mid,
      generate_stream_model rms provider model_id messages hfStream
          ollamaStream ≠
        .error (.contextLimitExceeded tc cw mid)) ∧
    (∀ enc reg provider model_id messages,
      estimate_messages_tokens enc messages provider model_id >
          get_provider_context_window reg provider model_id →
        log_context_window_check enc reg provider model_id messages =
          .error (.contextLimitExceeded
            (estimate_messages_tokens enc messages provider model_id)
            (get_provider_context_window reg provider model_id)
            (provider ++ "/" ++ model_id))) ∧
    (∀ enc reg provider model_id messages,
      estimate_messages_tokens enc messages provider model_id ≤
          get_provider_context_window reg provider model_id →
        log_context_window_check enc reg provider model_id messages = .ok ()) ∧
    log_context_window_check (fun _ _ => none)
        (register_context_window emptyReg "ollama" "tiny" 10) "ollama" "tiny"
        [⟨"user", "hello world"⟩] =
      .error (.contextLimitExceeded 19 10 "ollama/tiny") ∧
    generate_response_model "ollama" "tiny" [⟨"user", "hello world"⟩]
        (fun _ _ => .error (.modelServiceE "unused"))
        (fun _ _ => .ok "done".toList) =
      .ok ("done".toList, none) := by
  refine ⟨?_, ?_, ?_, ?_, ?_, ?_⟩
  · intro provider model_id messages hfGen ollamaGen tc cw mid
    unfold generate_response_model
    cases hfm : format_messages provider messages with
    | error msg => simp
    | ok prompt =>
      dsimp only
      by_cases h1 : provider = "huggingface"
      · rw [if_pos h1]
        cases hfGen model_id prompt with
        | error e => cases e <;> simp [liftAdapter]
        | ok text => simp
      · rw [if_neg h1]
        by_cases h2 : provider = "ollama"
        · rw [if_pos h2]
          cases ollamaGen model_id prompt with
          | error e => cases e <;> simp [liftAdapter]
          | ok text => simp
        · rw [if_neg h2]
          simp
  · intro rms provider model_id messages hfStream ollamaStream tc cw mid
    unfold generate_stream_model
    cases hfm : format_messages provider messages with
    | error msg => simp
    | ok prompt =>
      dsimp only
      by_cases h1 : provider = "huggingface"
      · rw [if_pos h1]
        simp
      · rw [if_neg h1]
        by_cases h2 : provider = "ollama"
        · rw [if_pos h2]
          simp
        · rw [if_neg h2]
          simp
  · intro enc reg provider model_id messages h
    unfold log_context_window_check
    rw [if_pos h]
  · intro enc reg provider model_id messages h
    unfold log_context_window_check
    rw [if_neg (by omega)]
  · decide
  · rfl

/-- Witness for C3 (the two conditional conjuncts applied at concrete
inputs): an estimate of 19 tokens against a registered window of 10 raises
with the carried data, and the same estimate against the default 4096 window
passes. -/
theorem C3_context_limit_never_propagates_witness :
    log_context_window_check (fun _ _ => none)
        (register_context_window emptyReg "ollama" "tiny" 12) "ollama" "tiny"
        [⟨"user", "hello world"⟩] =
      .error (.contextLimitExceeded 19 12 "ollama/tiny") ∧
    log_context_window_check (fun _ _ => none) emptyReg "ollama" "tiny"
        [⟨"user", "hello world"⟩] = .ok () := by
  constructor
  · exact (C3_context_limit_never_propagates.2.2.1 (fun _ _ => none)
      (register_context_window emptyReg "ollama" "tiny" 12) "ollama" "tiny"
      [⟨"user", "hello world"⟩] (by decide)).trans (by decide)
  · exact C3_context_limit_never_propagates.2.2.2.1 (fun _ _ => none) emptyReg
      "ollama" "tiny" [⟨"user", "hello world"⟩] (by decide)

/-! ### String-key bookkeeping for the registry -/

theorem data_append (s t : String) : (s ++ t).data = s.data ++ t.data := by
  cases s; cases t; rfl

theorem data_append3 (a b c : String) :
    (a ++ b ++ c).data = a.data ++ b.data ++ c.data := by
  rw [data_append, data_append]

theorem ne_of_char_mem (a b : String) (c : Char) (h1 : c ∈ b.data)
    (h2 : c ∉ a.data) : a ≠ b := by
  intro he
  rw [he] at h2
  exact h2 h1

theorem ne_of_data_length (a b : String) (h : a.data.length ≠ b.data.length) :
    a ≠ b := fun he => h (by rw [he])

theorem regSet_self (r : Reg) (k : String) (v : Nat) : regSet r k v k = some v := by
  simp [regSet]

theorem regSet_other (r : Reg) (k : String) (v : Nat) (x : String) (h : x ≠ k) :
    regSet r k v x = r x := by
  simp [regSet, h]

theorem colon_data : (":" : String).data = [':'] := rfl

theorem slash_data : ("/" : String).data = ['/'] := rfl

theorem colon_mem_tag (f t : String) : ':' ∈ (f ++ ":" ++ t).data := by
  rw [data_append3, colon_data]
  simp

theorem slash_mem_full (p q : String) : '/' ∈ (p ++ "/" ++ q).data := by
  rw [data_append3, slash_data]
  simp

theorem slash_notin_tag (f t : String) (hf : '/' ∉ f.data) (ht : '/' ∉ t.data) :
    '/' ∉ (f ++ ":" ++ t).data := by
  rw [data_append3, colon_data]
  intro hmem
  rcases List.mem_append.mp hmem with h1 | h2
  · rcases List.mem_append.mp h1 with h3 | h4
    · exact hf h3
    · rw [List.mem_singleton] at h4
      exact absurd h4 (by decide)
  · exact ht h2

theorem full_ne_fullTag (p f t : String) :
    (p ++ "/" ++ f) ≠ (p ++ "/" ++ (f ++ ":" ++ t)) := by
  apply ne_of_data_length
  simp only [data_append, colon_data, slash_data, List.length_append,
    List.length_singleton]
  omega

theorem takeWhile_colon_stop (l m : List Char) (h : ∀ c ∈ l, c ≠ ':') :
    (l ++ ':' :: m).takeWhile (fun c => c != ':') = l := by
  induction l with
  | nil => simp
  | cons a l ih =>
    rw [List.cons_append, List.takeWhile_cons]
    have ha : (a != ':') = true := bne_iff_ne.mpr (h a (by simp))
    rw [ha, if_pos rfl, ih (fun c hc => h c (by simp [hc]))]

theorem takeWhile_colon_no_colon (l : List Char) :
    ':' ∉ l.takeWhile (fun c => c != ':') := by
  induction l with
  | nil => simp
  | cons a l ih =>
    rw [List.takeWhile_cons]
    by_cases ha : a = ':'
    · simp [ha]
    · rw [bne_iff_ne.mpr ha, if_pos rfl]
      intro hm
      rcases List.mem_cons.mp hm with h1 | h2
      · exact ha h1.symm
      · exact ih h2

theorem modelFamily_tag (f t : String) (h : ':' ∉ f.data) :
    modelFamily (f ++ ":" ++ t) = f := by
  unfold modelFamily
  have hd : (f ++ ":" ++ t).toList = f.data ++ ':' :: t.data := by
    show (f ++ ":" ++ t).data = _
    rw [data_append3, colon_data]
    simp
  rw [hd, takeWhile_colon_stop f.data t.data (fun c hc he => h (he ▸ hc))]

theorem hasColon_tag (f t : String) : hasColon (f ++ ":" ++ t) = true := by
  unfold hasColon
  apply List.any_eq_true.mpr
  refine ⟨':', ?_, by decide⟩
  show ':' ∈ (f ++ ":" ++ t).data
  exact colon_mem_tag f t

/-- Unfolding `register_context_window` for a `family:tag` model id. -/
theorem register_tag_unfold (r : Reg) (p f t : String) (v : Nat)
    (hcf : ':' ∉ f.data) :
    register_context_window r p (f ++ ":" ++ t) v =
      if (match regSet (regSet r (p ++ "/" ++ (f ++ ":" ++ t)) v)
            (f ++ ":" ++ t) v f with
          | none => true
          | some e => e == 0 || v < e) = true
      then regSet (regSet (regSet (regSet r (p ++ "/" ++ (f ++ ":" ++ t)) v)
        (f ++ ":" ++ t) v) f v) (p ++ "/" ++ f) v
      else regSet (regSet r (p ++ "/" ++ (f ++ ":" ++ t)) v)
        (f ++ ":" ++ t) v := by
  unfold register_context_window
  rw [hasColon_tag f t, modelFamily_tag f t hcf]
  simp

theorem orElseT_some_pos (v : Nat) (k : Nat) (h : 0 < v) :
    orElseT (some v) k = v := by
  have he : orElseT (some v) k = if v = 0 then k else v := rfl
  rw [he, if_neg (by omega)]

/-! ### Claim C6 -/

/-- C6: conservative-minimum registration at family level. For one provider
`p` and a family `f` (colon-free; with `/`-free names so that no dynamic keys
collide), registering two tags of the family with a larger then a smaller
value — or the smaller then the larger — leaves the family-level window at the
smaller value: the family entry is only overwritten by a strictly smaller
value, so the result is order-independent, the minimum of the two. -/
theorem C6_family_conservative_minimum (p f t1 t2 : String) (vlo vhi : Nat)
    (hlo : 0 < vlo) (hlt : vlo < vhi)
    (hcf : ':' ∉ f.data) (hsf : '/' ∉ f.data) (hst2 : '/' ∉ t2.data) :
    get_provider_context_window
      (register_context_window
        (register_context_window emptyReg p (f ++ ":" ++ t1) vhi)
        p (f ++ ":" ++ t2) vlo) p f = vlo ∧
    get_provider_context_window
      (register_context_window
        (register_context_window emptyReg p (f ++ ":" ++ t1) vlo)
        p (f ++ ":" ++ t2) vhi) p f = vlo := by
  have hA1 : f ≠ p ++ "/" ++ (f ++ ":" ++ t1) :=
    ne_of_char_mem _ _ '/' (slash_mem_full p _) hsf
  have hA2 : f ≠ p ++ "/" ++ (f ++ ":" ++ t2) :=
    ne_of_char_mem _ _ '/' (slash_mem_full p _) hsf
  have hB1 : f ≠ f ++ ":" ++ t1 :=
    ne_of_char_mem _ _ ':' (colon_mem_tag f t1) hcf
  have hB2 : f ≠ f ++ ":" ++ t2 :=
    ne_of_char_mem _ _ ':' (colon_mem_tag f t2) hcf
  have hC2 : (p ++ "/" ++ f) ≠ p ++ "/" ++ (f ++ ":" ++ t2) :=
    full_ne_fullTag p f t2
  have hD2 : (p ++ "/" ++ f) ≠ f ++ ":" ++ t2 :=
    (ne_of_char_mem _ _ '/' (slash_mem_full p f)
      (slash_notin_tag f t2 hsf hst2)).symm
  have hF : f ≠ p ++ "/" ++ f :=
    ne_of_char_mem _ _ '/' (slash_mem_full p f) hsf
  constructor
  · -- larger value first, then smaller
    have h1 : register_context_window emptyReg p (f ++ ":" ++ t1) vhi =
        regSet (regSet (regSet (regSet emptyReg
          (p ++ "/" ++ (f ++ ":" ++ t1)) vhi) (f ++ ":" ++ t1) vhi) f vhi)
          (p ++ "/" ++ f) vhi := by
      rw [register_tag_unfold emptyReg p f t1 vhi hcf]
      rw [regSet_other _ _ _ _ hB1, regSet_other _ _ _ _ hA1]
      rfl
    rw [h1]
    rw [register_tag_unfold _ p f t2 vlo hcf]
    rw [regSet_other _ _ _ _ hB2, regSet_other _ _ _ _ hA2,
      regSet_other _ _ _ _ hF, regSet_self]
    dsimp only
    have hcond : ((vhi == 0 || decide (vlo < vhi)) = true) := by
      simp [hlt]
    rw [if_pos hcond]
    unfold get_provider_context_window
    dsimp only
    rw [regSet_self]
    exact orElseT_some_pos vlo _ hlo
  · -- smaller value first, then larger
    have h1 : register_context_window emptyReg p (f ++ ":" ++ t1) vlo =
        regSet (regSet (regSet (regSet emptyReg
          (p ++ "/" ++ (f ++ ":" ++ t1)) vlo) (f ++ ":" ++ t1) vlo) f vlo)
          (p ++ "/" ++ f) vlo := by
      rw [register_tag_unfold emptyReg p f t1 vlo hcf]
      rw [regSet_other _ _ _ _ hB1, regSet_other _ _ _ _ hA1]
      rfl
    rw [h1]
    rw [register_tag_unfold _ p f t2 vhi hcf]
    rw [regSet_other _ _ _ _ hB2, regSet_other _ _ _ _ hA2,
      regSet_other _ _ _ _ hF, regSet_self]
    dsimp only
    have hcond : ((vlo == 0 || decide (vhi < vlo)) = false) := by
      have h0 : (vlo == 0) = false := by
        simp [Nat.pos_iff_ne_zero.mp hlo]
      have hno : decide (vhi < vlo) = false := by
        rw [decide_eq_false_iff_not]
        omega
      rw [h0, hno]
      rfl
    rw [hcond]
    simp only [Bool.false_eq_true, if_false]
    unfold get_provider_context_window
    dsimp only
    rw [regSet_other _ _ _ _ hD2, regSet_other _ _ _ _ hC2, regSet_self]
    exact orElseT_some_pos vlo _ hlo

/-- Witness for C6: `ollama llama3:a` 8192 then `llama3:b` 4096 (and in
reverse order) both leave the `llama3` family window at 4096. -/
theorem C6_family_conservative_minimum_witness :
    get_provider_context_window
      (register_context_window
        (register_context_window emptyReg "ollama" ("llama3" ++ ":" ++ "a") 8192)
        "ollama" ("llama3" ++ ":" ++ "b") 4096) "ollama" "llama3" = 4096 ∧
    get_provider_context_window
      (register_context_window
        (register_context_window emptyReg "ollama" ("llama3" ++ ":" ++ "a") 4096)
        "ollama" ("llama3" ++ ":" ++ "b") 8192) "ollama" "llama3" = 4096 :=
  C6_family_conservative_minimum "ollama" "llama3" "a" "b" 4096 8192
    (by decide) (by decide) (by decide) (by decide) (by decide)

/-! ### Claim C7 -/

theorem CONTEXT_WINDOWS_pos (k : String) (v : Nat)
    (h : CONTEXT_WINDOWS k = some v) : 0 < v := by
  unfold CONTEXT_WINDOWS at h
  cases hf : CONTEXT_WINDOWS_TABLE.find? (fun e => e.1 == k) with
  | none => rw [hf] at h; simp at h
  | some e =>
    rw [hf] at h
    simp at h
    have hmem := List.mem_of_find?_eq_some hf
    have hall : ∀ e ∈ CONTEXT_WINDOWS_TABLE, 0 < e.2 := by decide
    rw [← h]
    exact hall e hmem

/-- A first-match fallback chain, as the spec words the lookup order; a
missing or falsy entry falls through to the next candidate. -/
def lookupChain : List (Option Nat) → Nat → Nat
  | [], dflt => dflt
  | c :: rest, dflt =>
    match c with
    | some v => if v = 0 then lookupChain rest dflt else v
    | none => lookupChain rest dflt

theorem lookupChain_nil (d : Nat) : lookupChain [] d = d := rfl

theorem lookupChain_cons (c : Option Nat) (rest : List (Option Nat)) (d : Nat) :
    lookupChain (c :: rest) d = orElseT c (lookupChain rest d) := by
  cases c <;> rfl

theorem orElseT_none (k : Nat) : orElseT none k = k := rfl

/-- Modelled from the spec: the claim's lookup order — "exact dynamic entry →
bare-model dynamic entry → family dynamic entry → exact static entry → family
static entry → provider-level default → global default constant (4096)" —
with the family entry being the bare family key, the only family key the
spec's description of `register_context_window` writes. -/
def spec_lookup_order_claim (reg : Reg) (provider model_id : String) : Nat :=
  lookupChain
    [reg (provider ++ "/" ++ model_id),
     reg model_id,
     (if hasColon model_id then reg (modelFamily model_id) else none),
     CONTEXT_WINDOWS (provider ++ "/" ++ model_id),
     CONTEXT_WINDOWS model_id,
     (if hasColon model_id then CONTEXT_WINDOWS (modelFamily model_id) else none),
     CONTEXT_WINDOWS (provider ++ "/default")]
    4096

/-- The full lookup order the code implements: the claim's order with one more
probe, the provider-scoped dynamic family key, between the family dynamic
entry and the static entries. -/
def spec_lookup_order_full (reg : Reg) (provider model_id : String) : Nat :=
  lookupChain
    [reg (provider ++ "/" ++ model_id),
     reg model_id,
     (if hasColon model_id then reg (modelFamily model_id) else none),
     (if hasColon model_id then
        reg (provider ++ "/" ++ modelFamily model_id) else none),
     CONTEXT_WINDOWS (provider ++ "/" ++ model_id),
     CONTEXT_WINDOWS model_id,
     (if hasColon model_id then CONTEXT_WINDOWS (modelFamily model_id) else none),
     CONTEXT_WINDOWS (provider ++ "/default")]
    4096

theorem static_match_eq_orElseT (x : String) (k : Nat) :
    (match CONTEXT_WINDOWS x with
     | some v => v
     | none => k) = orElseT (CONTEXT_WINDOWS x) k := by
  cases h : CONTEXT_WINDOWS x with
  | none => rfl
  | some v =>
    have hv := CONTEXT_WINDOWS_pos x v h
    dsimp only
    rw [(orElseT_some_pos v k hv)]

theorem lookupChain_pos (l : List (Option Nat)) (d : Nat) (hd : 0 < d) :
    0 < lookupChain l d := by
  induction l with
  | nil => exact hd
  | cons c rest ih =>
    rw [lookupChain_cons]
    cases c with
    | none => exact ih
    | some v =>
      have he : orElseT (some v) (lookupChain rest d) =
          if v = 0 then lookupChain rest d else v := rfl
      rw [he]
      by_cases hv : v = 0
      · rw [if_pos hv]; exact ih
      · rw [if_neg hv]; omega

/-- C7, counterexample: after `register_context_window("hf", "a/b", 5)` — the
bare `model_id` write creates the key `"a/b"`, which doubles as the
provider-scoped family key of provider `"a"` and family `"b"` — the code's
`get_provider_context_window("a", "b:x")` returns 5 from that probe, while
the claim's seven-step lookup order (which has no provider-scoped family
dynamic step) would fall through to the global default 4096. -/
theorem C7_counterexample :
    get_provider_context_window (register_context_window emptyReg "hf" "a/b" 5)
      "a" "b:x" = 5 ∧
    spec_lookup_order_claim (register_context_window emptyReg "hf" "a/b" 5)
      "a" "b:x" = 4096 ∧
    get_provider_context_window (register_context_window emptyReg "hf" "a/b" 5)
        "a" "b:x" ≠
      spec_lookup_order_claim (register_context_window emptyReg "hf" "a/b" 5)
        "a" "b:x" := by
  refine ⟨by decide, by decide, by decide⟩

/-- C7 (amended): for every registry state, provider and model id,
`get_provider_context_window` realizes the lookup order exact dynamic →
bare-model dynamic → family dynamic → provider-scoped family dynamic → exact
static (`provider/model_id` then bare) → family static → provider-level
default → 4096, preferring a dynamic entry over a static one for the same key
regardless of registration order, and always returns a positive integer. -/
theorem C7_lookup_order (reg : Reg) (provider model_id : String) :
    get_provider_context_window reg provider model_id =
      spec_lookup_order_full reg provider model_id ∧
    0 < get_provider_context_window reg provider model_id := by
  have heq : get_provider_context_window reg provider model_id =
      spec_lookup_order_full reg provider model_id := by
    unfold get_provider_context_window spec_lookup_order_full
    simp only [lookupChain_cons, lookupChain_nil]
    by_cases hc : hasColon model_id
    · simp only [hc, if_true, static_match_eq_orElseT]
    · rw [Bool.not_eq_true] at hc
      simp only [hc, Bool.false_eq_true, if_false, static_match_eq_orElseT,
        orElseT_none]
  refine ⟨heq, ?_⟩
  rw [heq]
  unfold spec_lookup_order_full
  exact lookupChain_pos _ _ (by omega)

/-! ### Claim C10 -/

theorem string_append_length (a b : String) :
    (a ++ b).data.length = a.data.length + b.data.length := by
  rw [data_append, List.length_append]

theorem length_takeWhile_le (p : Char → Bool) (l : List Char) :
    (l.takeWhile p).length ≤ l.length := by
  induction l with
  | nil => simp
  | cons a l ih =>
    rw [List.takeWhile_cons]
    split
    · simpa using ih
    · simp

/-- The exact `provider/model_id` key always ends up at the value just
registered: neither the bare write nor the family writes can clobber it. -/
theorem register_full_key (r : Reg) (p m : String) (v : Nat) :
    register_context_window r p m v (p ++ "/" ++ m) = some v := by
  have hm : m ≠ p ++ "/" ++ m := by
    apply ne_of_data_length
    rw [string_append_length, string_append_length, slash_data]
    simp
  unfold register_context_window
  by_cases hc : hasColon m
  · rw [if_pos hc]
    have hfam : modelFamily m ≠ p ++ "/" ++ m := by
      apply ne_of_data_length
      rw [string_append_length, string_append_length, slash_data]
      have hle : (modelFamily m).data.length ≤ m.data.length := by
        unfold modelFamily
        exact length_takeWhile_le (fun c => c != ':') m.toList
      simp only [List.length_singleton]
      omega
    have hpfam : p ++ "/" ++ modelFamily m ≠ p ++ "/" ++ m := by
      intro he
      have hd := congrArg String.data he
      rw [data_append3, data_append3] at hd
      have hfm : (modelFamily m).data = m.data := by
        simpa [List.append_assoc] using hd
      obtain ⟨c, hcm, hceq⟩ := List.any_eq_true.mp hc
      have hcc : c = ':' := by simpa using hceq
      subst hcc
      have : ':' ∈ (modelFamily m).data := hfm ▸ hcm
      exact takeWhile_colon_no_colon m.toList this
    split
    · rw [regSet_other _ _ _ _ (Ne.symm hpfam), regSet_other _ _ _ _
        (Ne.symm hfam), regSet_other _ _ _ _ (Ne.symm hm), regSet_self]
    · rw [regSet_other _ _ _ _ (Ne.symm hm), regSet_self]
  · rw [if_neg hc]
    rw [regSet_other _ _ _ _ (Ne.symm hm), regSet_self]

/-- C10: the exact and bare dynamic keys are overwritten unconditionally
(last value wins): after registering the same exact model twice, a lookup for
that exact model returns the most recently registered value — for any prior
registry state and any pair of values — so the conservative-minimum policy
does not apply to the exact key. -/
theorem C10_exact_key_last_wins (r : Reg) (p m : String) (v1 v2 : Nat)
    (h2 : 0 < v2) :
    get_provider_context_window
      (register_context_window (register_context_window r p m v1) p m v2)
      p m = v2 := by
  unfold get_provider_context_window
  dsimp only
  rw [register_full_key]
  exact orElseT_some_pos v2 _ h2

/-- Witness for C10: registering `ollama/llama3:latest` at 4096 then 8192
yields 8192 — the later value, not the minimum. -/
theorem C10_exact_key_last_wins_witness :
    get_provider_context_window
      (register_context_window
        (register_context_window emptyReg "ollama" "llama3:latest" 4096)
        "ollama" "llama3:latest" 8192)
      "ollama" "llama3:latest" = 8192 :=
  C10_exact_key_last_wins emptyReg "ollama" "llama3:latest" 4096 8192
    (by decide)

end FI
